import Mathlib

/-!
Verification development for the `strawberry` media streamer.

Shallow embedding of the media-transport core: byte strings are `List Nat`
(each element a byte value), Python integers are `Nat` with explicit
`% 2^w` where the source wraps, and fallible code (Python exceptions)
returns `Option`/`Except`.  The XSalsa20-Poly1305 primitive from `nacl`
is external to the repository and is treated as an abstract function
parameter (`EncFn`): the code under verification only composes its result.
-/

namespace Strawberry

/-! ### Byte-order helpers (Python `struct` pack/unpack, big-endian) -/

/-- Big-endian interpretation of a byte string (`struct.unpack(">H")`,
`struct.unpack(">I")` on a list of the corresponding length). -/
def bytesToNatBE (l : List Nat) : Nat := l.foldl (fun acc b => acc * 256 + b) 0

/-- `struct.pack(">H", n)` for `n < 2^16`. -/
def pack16 (n : Nat) : List Nat := [n / 256 % 256, n % 256]

/-- `struct.pack(">I", n)` for `n < 2^32`. -/
def pack32 (n : Nat) : List Nat :=
  [n / 16777216 % 256, n / 65536 % 256, n / 256 % 256, n % 256]

theorem length_pack32 (n : Nat) : (pack32 n).length = 4 := rfl

theorem length_pack16 (n : Nat) : (pack16 n).length = 2 := rfl

theorem bytesToNatBE_pack16 (n : Nat) (h : n < 65536) :
    bytesToNatBE (pack16 n) = n := by
  simp only [pack16, bytesToNatBE, List.foldl]
  omega

theorem bytesToNatBE_pack32 (n : Nat) (h : n < 4294967296) :
    bytesToNatBE (pack32 n) = n := by
  simp only [pack32, bytesToNatBE, List.foldl]
  omega

/-! ### `strawberry/utils.py` -/

/-- `checked_add(integer, quantity, limit)` from `utils.py`. -/
def checkedAdd (integer quantity limit : Nat) : Nat :=
  (integer + quantity) % limit

/-- `partition_chunks(data, chunk_size)` from `utils.py`: successive slices
`data[i : i + chunk_size]` for `i = 0, chunk_size, 2*chunk_size, ...`.
(The `chunk_size = 0` case, a `ValueError` for Python's `range`, is never
reached by the repository, which always passes `MTU - 12 = 1188`.) -/
def partitionChunks : List Nat → Nat → List (List Nat)
  | [], _ => []
  | _ :: _, 0 => []
  | a :: l, k + 1 =>
    (a :: l).take (k + 1) :: partitionChunks ((a :: l).drop (k + 1)) (k + 1)
  termination_by data _ => data.length
  decreasing_by simp only [List.length_drop, List.length_cons]; omega

theorem partitionChunks_cons (a : Nat) (l : List Nat) (k : Nat) :
    partitionChunks (a :: l) (k + 1) =
      (a :: l).take (k + 1) :: partitionChunks ((a :: l).drop (k + 1)) (k + 1) := by
  simp only [partitionChunks]

/-- Concatenating the chunks gives back the input. -/
theorem flatten_partitionChunks (k : Nat) :
    ∀ data : List Nat, (partitionChunks data (k + 1)).flatten = data
  | [] => by simp only [partitionChunks]; rfl
  | a :: l => by
    rw [partitionChunks_cons, List.flatten_cons,
      flatten_partitionChunks k ((a :: l).drop (k + 1)),
      List.take_append_drop]
  termination_by data => data.length
  decreasing_by simp only [List.length_drop, List.length_cons]; omega

/-! ### `strawberry/sources/h264_source.py` -/

/-- `get_raw_byte_sequence_payload(frame)` from `h264_source.py`, the RBSP
(emulation-prevention-byte removal) loop.  The source repeatedly finds the
first occurrence of `00 00 03`, inspects the byte one past it
(`frame[epbs_pos + 3]`, an `IndexError` — modelled as `none` — when the
occurrence is the very end of the frame), keeps either two or three bytes
of the prefix accordingly, and continues after the `03`. -/
def getRawByteSequencePayload : List Nat → Option (List Nat)
  | [] => some []
  | 0 :: 0 :: 3 :: rest =>
    match rest with
    | [] => none
    | b :: _ =>
      (getRawByteSequencePayload rest).map
        (fun tail => (if b ≤ 3 then [0, 0] else [0, 0, 3]) ++ tail)
  | b :: rest => (getRawByteSequencePayload rest).map (fun tail => b :: tail)

/-- `self.buffer.split(NAL_SUFFIX)` where `NAL_SUFFIX = b"\x00\x00\x01"`:
split on non-overlapping occurrences, scanning left to right; always
returns one more part than the number of occurrences. -/
def splitOnNalSuffix : List Nat → List (List Nat)
  | [] => [[]]
  | 0 :: 0 :: 1 :: rest => [] :: splitOnNalSuffix rest
  | b :: rest =>
    match splitOnNalSuffix rest with
    | [] => [[b]]
    | h :: t => (b :: h) :: t

/-- State of `H264NalPacketIterator`: the byte accumulator and the
in-progress access unit. -/
structure H264IterState where
  buffer : List Nat
  accessUnit : List (List Nat)
deriving DecidableEq, Repr

/-- The per-frame body of `H264NalPacketIterator.iter_access_units`, run
over the complete NAL-unit candidates of one chunk.  Returns the final
`access_unit` accumulator and the list of yielded access units, or `none`
where the source raises: `frame[-1]` on an empty candidate is an
`IndexError`, and `get_raw_byte_sequence_payload` can itself raise. -/
def processFrames : List (List Nat) → List (List Nat) →
    Option (List (List Nat) × List (List (List Nat)))
  | acc, [] => some (acc, [])
  | _, [] :: _ => none
  | acc, (b :: bs) :: rest =>
    let frame0 := b :: bs
    let frame := if frame0.getLast (List.cons_ne_nil b bs) = 0
      then frame0.dropLast else frame0
    match frame with
    | [] => processFrames acc rest
    | f0 :: fs =>
      let unitType := f0 &&& 0x1F
      if unitType = 9 then
        if acc ≠ [] then
          (processFrames [] rest).map (fun r => (r.1, acc :: r.2))
        else
          processFrames acc rest
      else if unitType = 7 ∨ unitType = 6 then
        match getRawByteSequencePayload (f0 :: fs) with
        | none => none
        | some r => processFrames (acc ++ [r]) rest
      else
        processFrames (acc ++ [f0 :: fs]) rest

/-- One call of `H264NalPacketIterator.iter_access_units(chunk)`: append the
chunk to the buffer, split on `00 00 01`, keep the final part as the new
buffer and run the candidate loop over the rest. -/
def iterAccessUnits (st : H264IterState) (chunk : List Nat) :
    Option (H264IterState × List (List (List Nat))) :=
  let parts := splitOnNalSuffix (st.buffer ++ chunk)
  (processFrames st.accessUnit parts.dropLast).map
    (fun r => ({ buffer := parts.getLast?.getD [], accessUnit := r.1 }, r.2))

/-- The encoding in `H264NalPacketIterator.iter_packets`: each yielded
access unit is flattened to `concat(pack(">I", len(nalu)) + nalu)`. -/
def encodeAccessUnit (accessUnit : List (List Nat)) : List Nat :=
  (accessUnit.map (fun nalu => pack32 nalu.length ++ nalu)).flatten

/-- Every decomposition of `l` around an occurrence of `00 00 03` leaves at
least one byte after the occurrence. -/
def NoStrandedEPB (l : List Nat) : Prop :=
  ∀ pre post : List Nat, l = pre ++ [0, 0, 3] ++ post → post ≠ []

/-- Helper for C10: a frame that ends exactly with `00 00 03` makes the
RBSP loop read one byte past the end of the frame. -/
theorem rbsp_none_of_endsWith (l : List Nat) :
    ∀ pre : List Nat, l = pre ++ [0, 0, 3] → getRawByteSequencePayload l = none := by
  induction l using getRawByteSequencePayload.induct with
  | case1 => intro pre h; simp at h
  | case2 => intro pre h; exact getRawByteSequencePayload.eq_2
  | case3 b tail ih =>
    intro pre h
    match pre, h with
    | [], h => simp at h
    | [p0], h => simp at h
    | [p0, p1], h => simp at h
    | p0 :: p1 :: p2 :: pr, h =>
      have hrest : b :: tail = pr ++ [0, 0, 3] := by
        simpa using congrArg (List.drop 3) h
      rw [getRawByteSequencePayload.eq_3, ih pr hrest, Option.map_none']
  | case4 b rest hne ih =>
    intro pre h
    match pre, h with
    | [], h =>
      have h' : b = 0 ∧ rest = [0, 3] := by simpa using h
      exact (hne [] h'.1 h'.2).elim
    | p0 :: pr, h =>
      have hrest : rest = pr ++ [0, 0, 3] := by
        simpa using congrArg (List.drop 1) h
      rw [getRawByteSequencePayload.eq_4 b rest hne, ih pr hrest, Option.map_none']

/-- Helper for C10: the RBSP loop terminates with a result whenever no
occurrence of `00 00 03` is stranded at the end of the frame. -/
theorem rbsp_isSome_of_noStranded (l : List Nat) :
    NoStrandedEPB l → (getRawByteSequencePayload l).isSome := by
  induction l using getRawByteSequencePayload.induct with
  | case1 => intro _; simp [getRawByteSequencePayload.eq_1]
  | case2 =>
    intro h
    exact absurd rfl (h [] [] rfl)
  | case3 b tail ih =>
    intro h
    rw [getRawByteSequencePayload.eq_3]
    have : NoStrandedEPB (b :: tail) := by
      intro p q hq
      exact h (0 :: 0 :: 3 :: p) q (by simp [hq])
    obtain ⟨v, hv⟩ := Option.isSome_iff_exists.mp (ih this)
    simp [hv]
  | case4 b rest hne ih =>
    intro h
    rw [getRawByteSequencePayload.eq_4 b rest hne]
    have : NoStrandedEPB rest := by
      intro p q hq
      exact h (b :: p) q (by simp [hq])
    obtain ⟨v, hv⟩ := Option.isSome_iff_exists.mp (ih this)
    simp [hv]

/-- **C10.** RBSP extraction (`get_raw_byte_sequence_payload`) is total on
every input frame in which each occurrence of the bytes `00 00 03` is
followed by at least one further byte; on an input that ends exactly with
`00 00 03` it reads one byte past the end of the frame (`frame[epbs_pos+3]`)
and fails with an index error — modelled as `none` — rather than returning
a result. -/
theorem C10_rbsp_totality :
    (∀ frame : List Nat,
       NoStrandedEPB frame → (getRawByteSequencePayload frame).isSome) ∧
    (∀ pre : List Nat, getRawByteSequencePayload (pre ++ [0, 0, 3]) = none) :=
  ⟨rbsp_isSome_of_noStranded, fun pre => rbsp_none_of_endsWith _ pre rfl⟩

/-- Witness for C10 at concrete inputs: `[0x67, 0, 0, 3, 5]` has its only
`00 00 03` occurrence followed by a byte, so extraction succeeds, while
`[0x67, 0, 0, 3]` ends with the pattern and fails. -/
theorem C10_rbsp_totality_witness :
    (getRawByteSequencePayload [0x67, 0, 0, 3, 5]).isSome ∧
    getRawByteSequencePayload ([0x67] ++ [0, 0, 3]) = none := by
  constructor
  · apply C10_rbsp_totality.1
    intro pre post h hpost
    subst hpost
    rcases pre with _ | ⟨a, _ | ⟨b, _ | ⟨c, pr⟩⟩⟩ <;> simp_all
    rcases pr with _ | ⟨d, _ | ⟨e, pr2⟩⟩ <;> simp_all
  · exact C10_rbsp_totality.2 [0x67]

/-- **C8** (code bug).  The spec says empty NAL-unit candidates are
discarded and parsing continues, and the source's own
`if not frame: continue` shows the same intent; but the trailing-zero check
`frame[-1] == 0` runs first, so a genuinely empty candidate — produced here
by the two adjacent three-byte start codes in
`00 00 01 00 00 01 41` — raises `IndexError` (modelled as `none`) instead
of being discarded.  First conjunct: the split really produces an empty
candidate; second: `iter_access_units` fails on that chunk. -/
theorem C8_empty_candidate_index_error :
    splitOnNalSuffix [0, 0, 1, 0, 0, 1, 0x41] = [[], [], [0x41]] ∧
    iterAccessUnits ⟨[], []⟩ [0, 0, 1, 0, 0, 1, 0x41] = none := by
  decide

/-! ### `strawberry/packetizers/base_packetizer.py` -/

/-- `BaseMediaPacketizer.MAX_INT_16 = 1 << 16`. -/
def MAX_INT_16 : Nat := 1 <<< 16

/-- `BaseMediaPacketizer.MAX_INT_32 = 1 << 32`. -/
def MAX_INT_32 : Nat := 1 <<< 32

theorem MAX_INT_16_eq : MAX_INT_16 = 65536 := rfl

theorem MAX_INT_32_eq : MAX_INT_32 = 4294967296 := rfl

/-- Mutable state of `BaseMediaPacketizer` (the fields the packetizing
methods read and write). -/
structure PState where
  sequence : Nat
  timestamp : Nat
  ssrc : Nat
  payloadType : Nat
  extensionsEnabled : Bool
  mtu : Nat
deriving DecidableEq, Repr

/-- `get_new_sequence`: wrapping pre-increment, returning the new value. -/
def getNewSequence (st : PState) : PState × Nat :=
  let s := checkedAdd st.sequence 1 MAX_INT_16
  ({ st with sequence := s }, s)

/-- `increment_timestamp(increment)`. -/
def incrementTimestamp (st : PState) (increment : Nat) : PState :=
  { st with timestamp := checkedAdd st.timestamp increment MAX_INT_32 }

/-- `get_rtp_header(is_last)`: the 12-byte RTP header.  The sequence field
holds the freshly incremented sequence; timestamp and SSRC are packed
big-endian. -/
def getRtpHeader (st : PState) (isLast : Bool) : PState × List Nat :=
  let b0 := (2 <<< 6) ||| ((if st.extensionsEnabled then 1 else 0) <<< 4)
  let b1 := if isLast then st.payloadType ||| 0b10000000 else st.payloadType
  let r := getNewSequence st
  (r.1, b0 :: b1 :: (pack16 r.2 ++ pack32 st.timestamp ++ pack32 st.ssrc))

/-- `get_header_extension()`: the `0xBEDE` one-entry extension profile
(id=5, len=2, val=0). -/
def getHeaderExtension : List Nat :=
  let profile := [0xBE, 0xDE] ++ pack16 1
  let data := [((5 &&& 0b00001111) <<< 4) ||| ((2 - 1) &&& 0b00001111)] ++ pack16 0 ++ [0]
  profile ++ data

theorem getHeaderExtension_eq :
    getHeaderExtension = [0xBE, 0xDE, 0, 1, 0x51, 0, 0, 0] := rfl

/-- One call of `conn.send_packet(conn.encrypt_data(header, payload))`
as observed at the packetizer/transport interface: the RTP header and the
plaintext payload handed to the transport. -/
structure RTPacket where
  header : List Nat
  payload : List Nat
deriving DecidableEq, Repr

/-- The RTP sequence number carried in an emitted header (bytes 2..3,
big-endian), as a receiver would read it. -/
def seqOfPacket (p : RTPacket) : Nat := bytesToNatBE ((p.header.drop 2).take 2)

/-! ### `strawberry/packetizers/audio_packetizer.py` -/

/-- `AudioPacketizer.__init__`: payload type `0x78`, extensions disabled,
sequence/timestamp/ssrc zero, `mtu = 1200`. -/
def audioInitState : PState :=
  { sequence := 0, timestamp := 0, ssrc := 0, payloadType := 0x78,
    extensionsEnabled := false, mtu := 1200 }

/-- `AudioPacketizer.send_frame(frame)`: one packet per Opus frame, then
advance the timestamp by `FRAME_SIZE = 960`. -/
def audioSendFrame (st : PState) (frame : List Nat) : PState × List RTPacket :=
  let r := getRtpHeader st true
  (incrementTimestamp r.1 960, [{ header := r.2, payload := frame }])

/-- A run of the audio packetizer over a list of Opus frames, collecting
every emitted packet in order. -/
def audioRun : PState → List (List Nat) → PState × List RTPacket
  | st, [] => (st, [])
  | st, f :: fs =>
    let r := audioSendFrame st f
    let rr := audioRun r.1 fs
    (rr.1, r.2 ++ rr.2)

/-! ### `strawberry/packetizers/h264_packetizer.py` -/

/-- State of `H264Packetizer`: the base packetizer state plus `fps`. -/
structure H264State where
  base : PState
  fps : Nat
deriving DecidableEq, Repr

/-- `H264Packetizer.__init__`: payload type `0x65`, extensions enabled,
`fps = 30`. -/
def h264InitState : H264State :=
  { base := { sequence := 0, timestamp := 0, ssrc := 0, payloadType := 0x65,
              extensionsEnabled := true, mtu := 1200 },
    fps := 30 }

/-- The length-prefix parse loop at the top of `H264Packetizer.send_frame`:
`while offset < len: nalu_size = unpack_from(">I", ..., offset); ...`.
Returns `none` where `struct.unpack_from` raises (fewer than 4 bytes left
at `offset` while `offset < len`); the slice `access_unit[offset:offset +
nalu_size]` itself truncates silently. -/
def parseNalus (accessUnit : List Nat) : Option (List (List Nat)) :=
  if accessUnit = [] then some []
  else if accessUnit.length < 4 then none
  else
    let size := bytesToNatBE (accessUnit.take 4)
    let rest := accessUnit.drop 4
    (parseNalus (rest.drop size)).map (fun l => rest.take size :: l)
  termination_by accessUnit.length
  decreasing_by simp only [List.length_drop]; omega

/-- The FU-A chunk loop (`for j, chunk in enumerate(chunks)`) of
`H264Packetizer.send_frame`.  `isFirst` tracks `j == 0`; a singleton chunk
list means the current chunk is the final one (`j == len(chunks) - 1`).
The FU indicator is `0x1C | f_nri`; the FU header carries the start bit on
the first chunk, the end bit on the last (non-first) chunk, and always the
NAL type; the RTP marker is `is_final_chunk and is_last` (`is_last` being
`is_last_nalu`). -/
def sendChunks (isLastNalu : Bool) (fnri nalType : Nat) :
    PState → Bool → List (List Nat) → PState × List RTPacket
  | st, _, [] => (st, [])
  | st, isFirst, [c] =>
    let fuHeader := if isFirst then 0x80 ||| nalType else 0x40 ||| nalType
    let r := getRtpHeader st isLastNalu
    (r.1, [{ header := r.2,
             payload := getHeaderExtension ++ [0x1C ||| fnri, fuHeader] ++ c }])
  | st, isFirst, c :: c2 :: cs =>
    let fuHeader := if isFirst then 0x80 ||| nalType else nalType
    let r := getRtpHeader st false
    let p : RTPacket :=
      { header := r.2, payload := getHeaderExtension ++ [0x1C ||| fnri, fuHeader] ++ c }
    let rr := sendChunks isLastNalu fnri nalType r.1 false (c2 :: cs)
    (rr.1, p :: rr.2)

/-- The per-NAL-unit body of `H264Packetizer.send_frame`: a single-NAL
packet when `len(nalu) <= mtu`, FU-A fragmentation into chunks of
`mtu - 12` bytes otherwise.  `nalu[0]` on an empty NAL unit raises
`IndexError`, modelled as `none`. -/
def sendNalu (st : PState) (isLastNalu : Bool) : List Nat → Option (PState × List RTPacket)
  | [] => none
  | nal0 :: ns =>
    let nalu := nal0 :: ns
    if nalu.length ≤ st.mtu then
      let r := getRtpHeader st isLastNalu
      some (r.1, [{ header := r.2, payload := getHeaderExtension ++ nalu }])
    else
      let chunks := partitionChunks (nalu.drop 1) (st.mtu - 12)
      some (sendChunks isLastNalu (nal0 &&& 0xE0) (nal0 &&& 0x1F) st true chunks)

/-- The `for i, nalu in enumerate(nalus)` loop of
`H264Packetizer.send_frame`; `is_last = (i == len(nalus) - 1)`. -/
def sendNalus : PState → List (List Nat) → Option (PState × List RTPacket)
  | st, [] => some (st, [])
  | st, [n] => sendNalu st true n
  | st, n :: n2 :: ns =>
    match sendNalu st false n with
    | none => none
    | some r =>
      match sendNalus r.1 (n2 :: ns) with
      | none => none
      | some rr => some (rr.1, r.2 ++ rr.2)

/-- `H264Packetizer.send_frame(frame)`: parse the length-prefixed access
unit, emit every packet, then advance the timestamp once by
`int(90000 / fps)` (integer part of the true quotient). -/
def h264SendFrame (st : H264State) (frame : List Nat) :
    Option (H264State × List RTPacket) :=
  match parseNalus frame with
  | none => none
  | some nalus =>
    match sendNalus st.base nalus with
    | none => none
    | some r =>
      some ({ st with base := incrementTimestamp r.1 (90000 / st.fps) }, r.2)

/-- A run of the H.264 packetizer over a list of access-unit frames,
collecting every emitted packet in order. -/
def h264Run : H264State → List (List Nat) → Option (H264State × List RTPacket)
  | st, [] => some (st, [])
  | st, f :: fs =>
    match h264SendFrame st f with
    | none => none
    | some r =>
      match h264Run r.1 fs with
      | none => none
      | some rr => some (rr.1, r.2 ++ rr.2)

/-- **C9.** Encoding an access unit as the concatenation of
`pack(">I", len(nalu)) + nalu` per NAL — as `H264NalPacketIterator.iter_packets`
does — and parsing that byte string back with the length-prefix loop at the
top of `H264Packetizer.send_frame` recovers exactly the original list of
NAL units, in order.  (`struct.pack(">I", ...)` requires each length to
fit in 32 bits.) -/
theorem C9_length_prefix_roundtrip :
    ∀ nalus : List (List Nat),
      (∀ n ∈ nalus, n.length < MAX_INT_32) →
      parseNalus (encodeAccessUnit nalus) = some nalus := by
  intro nalus
  induction nalus with
  | nil => intro _; rw [parseNalus]; rfl
  | cons n rest ih =>
    intro hlen
    have hn : n.length < 4294967296 := by
      have := hlen n (by simp)
      rwa [MAX_INT_32_eq] at this
    have henc : encodeAccessUnit (n :: rest)
        = pack32 n.length ++ (n ++ encodeAccessUnit rest) := by
      simp [encodeAccessUnit]
    rw [henc, parseNalus]
    have hne : pack32 n.length ++ (n ++ encodeAccessUnit rest) ≠ [] := by
      simp [pack32]
    have hlen4 : ¬ (pack32 n.length ++ (n ++ encodeAccessUnit rest)).length < 4 := by
      simp [pack32]
    rw [if_neg hne, if_neg hlen4,
      List.take_left' (length_pack32 n.length),
      List.drop_left' (length_pack32 n.length),
      bytesToNatBE_pack32 n.length hn]
    simp only [List.take_left' rfl, List.drop_left' rfl,
      ih (fun m hm => hlen m (by simp [hm])), Option.map_some']

/-- Witness for C9 at a concrete access unit of two NAL units. -/
theorem C9_length_prefix_roundtrip_witness :
    parseNalus (encodeAccessUnit [[0x65, 0xAA], [0x41]]) = some [[0x65, 0xAA], [0x41]] :=
  C9_length_prefix_roundtrip [[0x65, 0xAA], [0x41]] (by decide)

/-! ### Sequence-number bookkeeping (for C5) -/

/-- The emitted packets `pkts` of one call carry the consecutive wrapped
sequence numbers following `s0`, and the packetizer's sequence field ends
at `s1`. -/
def SeqSpec (s0 : Nat) (pkts : List RTPacket) (s1 : Nat) : Prop :=
  s1 = (s0 + pkts.length) % MAX_INT_16 ∧
  ∀ i, (h : i < pkts.length) → seqOfPacket pkts[i] = (s0 + i + 1) % MAX_INT_16

theorem seqSpec_lt {s0 : Nat} {pkts : List RTPacket} {s1 : Nat}
    (hs : SeqSpec s0 pkts s1) : s1 < MAX_INT_16 := by
  rw [hs.1, MAX_INT_16_eq]; omega

theorem seqSpec_nil (s0 : Nat) (h : s0 < MAX_INT_16) : SeqSpec s0 [] s0 :=
  ⟨by rw [MAX_INT_16_eq] at *; simpa using by omega,
   fun i hi => absurd hi (by simp)⟩

theorem seqSpec_append {s0 s1 s2 : Nat} {p1 p2 : List RTPacket}
    (h0 : s0 < MAX_INT_16) (h1 : SeqSpec s0 p1 s1) (h2 : SeqSpec s1 p2 s2) :
    SeqSpec s0 (p1 ++ p2) s2 := by
  obtain ⟨e1, g1⟩ := h1
  obtain ⟨e2, g2⟩ := h2
  constructor
  · rw [e2, e1, List.length_append, MAX_INT_16_eq]; omega
  · intro i hi
    rcases Nat.lt_or_ge i p1.length with hlt | hge
    · rw [List.getElem_append_left hlt]
      exact g1 i hlt
    · rw [List.getElem_append_right hge]
      have hj : i - p1.length < p2.length := by
        simp only [List.length_append] at hi; omega
      rw [g2 _ hj, e1, MAX_INT_16_eq]
      omega

theorem getRtpHeader_sequence (st : PState) (b : Bool) :
    (getRtpHeader st b).1.sequence = (st.sequence + 1) % MAX_INT_16 := rfl

theorem getRtpHeader_seqSpec (st : PState) (b : Bool) (payload : List Nat)
    (h : st.sequence < MAX_INT_16) :
    SeqSpec st.sequence [{ header := (getRtpHeader st b).2, payload := payload }]
      (getRtpHeader st b).1.sequence := by
  constructor
  · rfl
  · intro i hi
    simp only [List.length_cons, List.length_nil, Nat.lt_succ_iff, Nat.le_zero] at hi
    subst hi
    simp only [List.getElem_cons_zero, seqOfPacket, getRtpHeader]
    rw [List.drop_succ_cons, List.drop_succ_cons, List.drop_zero,
      List.append_assoc, List.take_left' (length_pack16 _),
      bytesToNatBE_pack16 _ (by rw [← MAX_INT_16_eq]; exact Nat.mod_lt _ (by decide))]
    rfl

theorem sendChunks_seqSpec (L : Bool) (f t : Nat) :
    ∀ (cs : List (List Nat)) (st : PState) (isF : Bool),
      st.sequence < MAX_INT_16 →
      SeqSpec st.sequence (sendChunks L f t st isF cs).2
        (sendChunks L f t st isF cs).1.sequence
  | [], st, isF, h => by
    simpa [sendChunks] using seqSpec_nil st.sequence h
  | [c], st, isF, h => by
    simpa [sendChunks] using getRtpHeader_seqSpec st L _ h
  | c :: c2 :: cs, st, isF, h => by
    simp only [sendChunks]
    have h1 := getRtpHeader_seqSpec st false
      (getHeaderExtension ++ [0x1C ||| f, if isF then 0x80 ||| t else t] ++ c) h
    have h2 := sendChunks_seqSpec L f t (c2 :: cs) (getRtpHeader st false).1 false
      (by rw [getRtpHeader_sequence, MAX_INT_16_eq]; omega)
    exact seqSpec_append h h1 h2

theorem sendNalu_seqSpec (st : PState) (L : Bool) (n : List Nat)
    (st2 : PState) (ps : List RTPacket)
    (he : sendNalu st L n = some (st2, ps)) (h : st.sequence < MAX_INT_16) :
    SeqSpec st.sequence ps st2.sequence := by
  match n, he with
  | nal0 :: ns, he =>
    rw [sendNalu] at he
    by_cases hm : (nal0 :: ns).length ≤ st.mtu
    · rw [if_pos hm] at he
      simp only [Option.some.injEq, Prod.mk.injEq] at he
      obtain ⟨h1, h2⟩ := he
      subst h1; subst h2
      exact getRtpHeader_seqSpec st L _ h
    · rw [if_neg hm] at he
      simp only [Option.some.injEq] at he
      rw [Prod.ext_iff] at he
      obtain ⟨h1, h2⟩ := he
      subst h1; subst h2
      exact sendChunks_seqSpec L _ _ _ st true h

theorem incrementTimestamp_sequence (st : PState) (x : Nat) :
    (incrementTimestamp st x).sequence = st.sequence := rfl

theorem sendNalus_seqSpec :
    ∀ (ns : List (List Nat)) (st st2 : PState) (ps : List RTPacket),
      sendNalus st ns = some (st2, ps) → st.sequence < MAX_INT_16 →
      SeqSpec st.sequence ps st2.sequence
  | [], st, st2, ps, he, h => by
    simp only [sendNalus, Option.some.injEq, Prod.mk.injEq] at he
    obtain ⟨h1, h2⟩ := he
    subst h1; subst h2
    exact seqSpec_nil _ h
  | [n], st, st2, ps, he, h => sendNalu_seqSpec st true n st2 ps he h
  | n :: n2 :: ns, st, st2, ps, he, h => by
    simp only [sendNalus] at he
    cases hr : sendNalu st false n with
    | none => rw [hr] at he; simp at he
    | some r =>
      rw [hr] at he
      dsimp only at he
      cases hrr : sendNalus r.1 (n2 :: ns) with
      | none => rw [hrr] at he; simp at he
      | some rr =>
        rw [hrr] at he
        simp only [Option.some.injEq, Prod.mk.injEq] at he
        obtain ⟨h1, h2⟩ := he
        subst h1; subst h2
        have s1 := sendNalu_seqSpec st false n r.1 r.2 (by rw [hr]) h
        have s2 := sendNalus_seqSpec (n2 :: ns) r.1 rr.1 rr.2 (by rw [hrr])
          (seqSpec_lt s1)
        exact seqSpec_append h s1 s2

theorem h264SendFrame_seqSpec (st : H264State) (frame : List Nat)
    (r : H264State × List RTPacket)
    (he : h264SendFrame st frame = some r) (h : st.base.sequence < MAX_INT_16) :
    SeqSpec st.base.sequence r.2 r.1.base.sequence := by
  simp only [h264SendFrame] at he
  cases hn : parseNalus frame with
  | none => rw [hn] at he; simp at he
  | some nalus =>
    rw [hn] at he
    dsimp only at he
    cases hrr : sendNalus st.base nalus with
    | none => rw [hrr] at he; simp at he
    | some rr =>
      rw [hrr] at he
      simp only [Option.some.injEq] at he
      subst he
      simpa [incrementTimestamp_sequence] using
        sendNalus_seqSpec nalus st.base rr.1 rr.2 (by rw [hrr]) h

theorem h264Run_seqSpec :
    ∀ (fs : List (List Nat)) (st : H264State) (r : H264State × List RTPacket),
      h264Run st fs = some r → st.base.sequence < MAX_INT_16 →
      SeqSpec st.base.sequence r.2 r.1.base.sequence
  | [], st, r, he, h => by
    simp only [h264Run, Option.some.injEq] at he
    subst he
    exact seqSpec_nil _ h
  | f :: fs, st, r, he, h => by
    simp only [h264Run] at he
    cases hr1 : h264SendFrame st f with
    | none => rw [hr1] at he; simp at he
    | some r1 =>
      rw [hr1] at he
      dsimp only at he
      cases hrr : h264Run r1.1 fs with
      | none => rw [hrr] at he; simp at he
      | some rr =>
        rw [hrr] at he
        simp only [Option.some.injEq] at he
        subst he
        have s1 := h264SendFrame_seqSpec st f r1 hr1 h
        have s2 := h264Run_seqSpec fs r1.1 rr hrr (seqSpec_lt s1)
        exact seqSpec_append h s1 s2

theorem audioSendFrame_seqSpec (st : PState) (f : List Nat)
    (h : st.sequence < MAX_INT_16) :
    SeqSpec st.sequence (audioSendFrame st f).2 (audioSendFrame st f).1.sequence := by
  simpa [audioSendFrame, incrementTimestamp_sequence]
    using getRtpHeader_seqSpec st true f h

theorem audioRun_seqSpec :
    ∀ (fs : List (List Nat)) (st : PState),
      st.sequence < MAX_INT_16 →
      SeqSpec st.sequence (audioRun st fs).2 (audioRun st fs).1.sequence
  | [], st, h => by
    simpa [audioRun] using seqSpec_nil _ h
  | f :: fs, st, h => by
    simp only [audioRun]
    have s1 := audioSendFrame_seqSpec st f h
    have s2 := audioRun_seqSpec fs (audioSendFrame st f).1 (seqSpec_lt s1)
    exact seqSpec_append h s1 s2

/-- **C5.** For every packetizer (the audio packetizer and the H.264
packetizer are the only two) and every number of emitted packets, the RTP
sequence numbers carried in the emitted headers form a contiguous sequence
modulo 2^16 starting at 1: the i-th emitted packet (0-based) carries
sequence `(i+1) % 2^16`, so the first carries 1 and each subsequent packet
carries the previous value plus one, wrapped. -/
theorem C5_rtp_sequence_contiguous :
    (∀ (frames : List (List Nat)) (i : Nat),
       (h : i < (audioRun audioInitState frames).2.length) →
       seqOfPacket (audioRun audioInitState frames).2[i] = (i + 1) % MAX_INT_16) ∧
    (∀ (frames : List (List Nat)) (r : H264State × List RTPacket),
       h264Run h264InitState frames = some r →
       ∀ i, (h : i < r.2.length) →
       seqOfPacket r.2[i] = (i + 1) % MAX_INT_16) := by
  constructor
  · intro frames i h
    have := (audioRun_seqSpec frames audioInitState (by decide)).2 i h
    simpa [audioInitState] using this
  · intro frames r he i h
    have := (h264Run_seqSpec frames h264InitState r he (by decide)).2 i h
    simpa [h264InitState] using this

/-- Concrete single-NAL access-unit frame `00 00 00 04 41` (one NAL unit
`[0x41]` with its 4-byte big-endian length prefix is `00 00 00 01 41`). -/
def vDemoFrame : List Nat := [0, 0, 0, 1, 0x41]

/-- The packet the H.264 packetizer emits for `vDemoFrame` from the
initial state. -/
def vDemoPkt : RTPacket :=
  { header := [0x90, 0xE5, 0, 1, 0, 0, 0, 0, 0, 0, 0, 0],
    payload := getHeaderExtension ++ [0x41] }

/-- The H.264 packetizer state after sending `vDemoFrame` from the initial
state. -/
def vDemoFin : H264State :=
  { base := { sequence := 1, timestamp := 3000, ssrc := 0, payloadType := 0x65,
              extensionsEnabled := true, mtu := 1200 },
    fps := 30 }

theorem parseNalus_nil : parseNalus [] = some [] := by rw [parseNalus]; rfl

theorem parseNalus_demo : parseNalus vDemoFrame = some [[0x41]] := by
  rw [vDemoFrame, parseNalus]
  norm_num [bytesToNatBE, parseNalus_nil]
  decide

theorem h264SendFrame_demo :
    h264SendFrame h264InitState vDemoFrame = some (vDemoFin, [vDemoPkt]) := by
  simp only [h264SendFrame, parseNalus_demo]
  decide

theorem h264Run_demo :
    h264Run h264InitState [vDemoFrame] = some (vDemoFin, [vDemoPkt]) := by
  simp only [h264Run, h264SendFrame_demo]
  rfl

/-- Witness for C5: concrete runs of both packetizers; the single emitted
packet of each carries sequence number `1`. -/
theorem C5_rtp_sequence_contiguous_witness :
    seqOfPacket ((audioRun audioInitState [[0x11]]).2.get ⟨0, by decide⟩)
      = (0 + 1) % MAX_INT_16 ∧
    seqOfPacket ([vDemoPkt].get ⟨0, by decide⟩) = (0 + 1) % MAX_INT_16 :=
  ⟨C5_rtp_sequence_contiguous.1 [[0x11]] 0 (by decide),
   C5_rtp_sequence_contiguous.2 [vDemoFrame] (vDemoFin, [vDemoPkt])
     h264Run_demo 0 (by decide)⟩

/-! ### Timestamp bookkeeping (for C7) -/

theorem getRtpHeader_timestamp (st : PState) (b : Bool) :
    (getRtpHeader st b).1.timestamp = st.timestamp := rfl

theorem sendChunks_timestamp (L : Bool) (f t : Nat) :
    ∀ (cs : List (List Nat)) (st : PState) (isF : Bool),
      (sendChunks L f t st isF cs).1.timestamp = st.timestamp
  | [], st, isF => rfl
  | [c], st, isF => rfl
  | c :: c2 :: cs, st, isF => by
    simp only [sendChunks]
    rw [sendChunks_timestamp L f t (c2 :: cs) _ false, getRtpHeader_timestamp]

theorem sendNalu_timestamp (st : PState) (L : Bool) (n : List Nat)
    (r : PState × List RTPacket) (he : sendNalu st L n = some r) :
    r.1.timestamp = st.timestamp := by
  match n, he with
  | nal0 :: ns, he =>
    rw [sendNalu] at he
    by_cases hm : (nal0 :: ns).length ≤ st.mtu
    · rw [if_pos hm] at he
      simp only [Option.some.injEq] at he
      rw [← he, getRtpHeader_timestamp]
    · rw [if_neg hm] at he
      simp only [Option.some.injEq] at he
      rw [← he]
      exact sendChunks_timestamp L _ _ _ st true

theorem sendNalus_timestamp :
    ∀ (ns : List (List Nat)) (st : PState) (r : PState × List RTPacket),
      sendNalus st ns = some r → r.1.timestamp = st.timestamp
  | [], st, r, he => by
    simp only [sendNalus, Option.some.injEq] at he
    rw [← he]
  | [n], st, r, he => sendNalu_timestamp st true n r he
  | n :: n2 :: ns, st, r, he => by
    simp only [sendNalus] at he
    cases hr : sendNalu st false n with
    | none => rw [hr] at he; simp at he
    | some r1 =>
      rw [hr] at he
      dsimp only at he
      cases hrr : sendNalus r1.1 (n2 :: ns) with
      | none => rw [hrr] at he; simp at he
      | some rr =>
        rw [hrr] at he
        simp only [Option.some.injEq] at he
        rw [← he]
        rw [sendNalus_timestamp (n2 :: ns) r1.1 rr hrr,
          sendNalu_timestamp st false n r1 hr]

/-- **C7.** After all packets of one H.264 access unit are emitted
(`send_frame` returns), the video packetizer's RTP timestamp has advanced
by the integer part of `90000 / fps`, modulo 2^32, for every positive
integer `fps` (Python's `int(90000 / fps)` truncates the float quotient,
which for these magnitudes equals the floor `90000 / fps` in `Nat`); with
the default `fps = 30` consecutive access-unit timestamps differ by
exactly 3000 mod 2^32. -/
theorem C7_h264_timestamp_advance :
    ∀ (st : H264State) (frame : List Nat) (r : H264State × List RTPacket),
      0 < st.fps → h264SendFrame st frame = some r →
      r.1.base.timestamp = (st.base.timestamp + 90000 / st.fps) % MAX_INT_32 ∧
      (st.fps = 30 →
        r.1.base.timestamp = (st.base.timestamp + 3000) % MAX_INT_32) := by
  intro st frame r hfps he
  simp only [h264SendFrame] at he
  cases hn : parseNalus frame with
  | none => rw [hn] at he; simp at he
  | some nalus =>
    rw [hn] at he
    dsimp only at he
    cases hrr : sendNalus st.base nalus with
    | none => rw [hrr] at he; simp at he
    | some rr =>
      rw [hrr] at he
      simp only [Option.some.injEq] at he
      subst he
      have hts := sendNalus_timestamp nalus st.base rr hrr
      constructor
      · simp only [incrementTimestamp, checkedAdd, hts]
      · intro h30
        simp only [incrementTimestamp, checkedAdd, hts, h30]

/-- Witness for C7: the demo frame advances the timestamp from 0 to
`90000 / 30 = 3000`. -/
theorem C7_h264_timestamp_advance_witness :
    vDemoFin.base.timestamp = (0 + 90000 / 30) % MAX_INT_32 ∧
    vDemoFin.base.timestamp = (0 + 3000) % MAX_INT_32 := by
  have := C7_h264_timestamp_advance h264InitState vDemoFrame
    (vDemoFin, [vDemoPkt]) (by decide) h264SendFrame_demo
  exact ⟨this.1, this.2 rfl⟩

/-! ### FU-A fragmentation of a 2400-byte NAL unit (for C3) -/

theorem partitionChunks_nil (k : Nat) : partitionChunks [] k = [] := by
  match k with
  | 0 => simp only [partitionChunks]
  | k + 1 => simp only [partitionChunks]

theorem partitionChunks_pos (data : List Nat) (k : Nat) (hk : 0 < k)
    (h : data ≠ []) :
    partitionChunks data k = data.take k :: partitionChunks (data.drop k) k := by
  match k, data with
  | k + 1, a :: l => exact partitionChunks_cons a l k

/-- Splitting a 2399-byte payload into chunks of `MTU - 12 = 1188` bytes
gives exactly three chunks (`1188 + 1188 + 23`). -/
theorem partitionChunks_2399 (body : List Nat) (hlen : body.length = 2399) :
    partitionChunks body 1188 =
      [body.take 1188, (body.drop 1188).take 1188, (body.drop 1188).drop 1188] := by
  have h1 : body ≠ [] := by
    intro h; rw [h] at hlen; simp at hlen
  have h2 : body.drop 1188 ≠ [] := by
    intro h
    have := congrArg List.length h
    simp [hlen] at this
  have h3 : (body.drop 1188).drop 1188 ≠ [] := by
    intro h
    have := congrArg List.length h
    simp [hlen] at this
  have h4 : ((body.drop 1188).drop 1188).drop 1188 = [] := by
    apply List.drop_of_length_le
    simp [hlen]
  have h5 : ((body.drop 1188).drop 1188).take 1188 = (body.drop 1188).drop 1188 := by
    apply List.take_of_length_le
    simp [hlen]
  rw [partitionChunks_pos body 1188 (by decide) h1,
    partitionChunks_pos _ 1188 (by decide) h2,
    partitionChunks_pos _ 1188 (by decide) h3,
    h4, h5, partitionChunks_nil]

/-- For a NAL unit `0x65 :: body` with 2399 payload bytes and MTU 1200,
`send_frame` takes the FU-A path with the three chunks above. -/
theorem sendNalu_2400 (st : PState) (L : Bool) (body : List Nat)
    (hmtu : st.mtu = 1200) (hlen : body.length = 2399) :
    sendNalu st L (0x65 :: body) =
      some (sendChunks L 0x60 0x05 st true
        [body.take 1188, (body.drop 1188).take 1188, (body.drop 1188).drop 1188]) := by
  rw [sendNalu]
  have hgt : ¬ (0x65 :: body).length ≤ st.mtu := by
    simp [hlen, hmtu]
  rw [if_neg hgt]
  have e1 : (0x65 &&& 0xE0 : Nat) = 0x60 := by decide
  have e2 : (0x65 &&& 0x1F : Nat) = 0x05 := by decide
  have e3 : st.mtu - 12 = 1188 := by rw [hmtu]
  have hdrop : (0x65 :: body).drop 1 = body := rfl
  rw [e1, e2, e3, hdrop, partitionChunks_2399 body hlen]

/-- **C3, counterexample.**  The claim expects exactly *two* FU-A packets
for a 2400-byte NAL unit with header byte `0x65` and MTU 1200, but the
fragmenter splits `nalu[1:]` (2399 bytes) into chunks of `MTU - 12 = 1188`
bytes, so it emits *three* packets. -/
theorem C3_fua_2400_counterexample :
    (sendNalu h264InitState.base true (0x65 :: List.replicate 2399 0xAA)).map
        (fun r => r.2.length) = some 3 ∧
    (sendNalu h264InitState.base true (0x65 :: List.replicate 2399 0xAA)).map
        (fun r => r.2.length) ≠ some 2 := by
  rw [sendNalu_2400 h264InitState.base true (List.replicate 2399 0xAA) rfl
    (by rw [List.length_replicate])]
  constructor
  · rfl
  · intro hc
    rw [Option.map_some'] at hc
    have h32 : (3 : Nat) = 2 := Option.some.inj hc
    exact absurd h32 (by decide)

/-- **C3, amended.**  For a NAL unit of length 2400 with header byte `0x65`
and MTU 1200, the H.264 packetizer emits exactly *three* FU-A packets; the
FU indicator/header byte pairs (payload bytes 8 and 9, after the 8-byte
extension block) are `0x7C 0x85` on the first, `0x7C 0x05` on the middle
and `0x7C 0x45` on the last packet, and the concatenation of the chunk
payloads (payload bytes from offset 10 on) reproduces bytes 1..2400 of the
original NAL unit. -/
theorem C3_fua_2400_fragmentation :
    ∀ (st : PState) (L : Bool) (body : List Nat),
      st.mtu = 1200 → body.length = 2399 →
      ∀ r, sendNalu st L (0x65 :: body) = some r →
        r.2.length = 3 ∧
        r.2.map (fun p => p.payload.take 10) =
          [getHeaderExtension ++ [0x7C, 0x85],
           getHeaderExtension ++ [0x7C, 0x05],
           getHeaderExtension ++ [0x7C, 0x45]] ∧
        (r.2.map (fun p => p.payload.drop 10)).flatten = body := by
  intro st L body hmtu hlen r he
  rw [sendNalu_2400 st L body hmtu hlen] at he
  have her := Option.some.inj he
  subst her
  refine ⟨rfl, rfl, ?_⟩
  show (body.take 1188) ++ ((body.drop 1188).take 1188 ++
      ((body.drop 1188).drop 1188 ++ [])) = body
  rw [List.append_nil, List.take_append_drop, List.take_append_drop]

/-- The 2399-byte FU-A payload used in the concrete C3 instance. -/
def c3Body : List Nat := List.replicate 2399 0xAA

/-- The state/packet pair the fragmenter produces for `0x65 :: c3Body`. -/
def c3DemoResult : PState × List RTPacket :=
  sendChunks true 0x60 0x05 h264InitState.base true
    [c3Body.take 1188, (c3Body.drop 1188).take 1188, (c3Body.drop 1188).drop 1188]

/-- Witness for the amended C3 at the concrete NAL
`0x65 :: replicate 2399 0xAA`. -/
theorem C3_fua_2400_fragmentation_witness :
    c3DemoResult.2.length = 3 ∧
    c3DemoResult.2.map (fun p => p.payload.take 10) =
      [getHeaderExtension ++ [0x7C, 0x85],
       getHeaderExtension ++ [0x7C, 0x05],
       getHeaderExtension ++ [0x7C, 0x45]] ∧
    (c3DemoResult.2.map (fun p => p.payload.drop 10)).flatten = c3Body :=
  C3_fua_2400_fragmentation h264InitState.base true c3Body rfl
    (by rw [c3Body, List.length_replicate]) c3DemoResult
    (sendNalu_2400 h264InitState.base true c3Body rfl
      (by rw [c3Body, List.length_replicate]))

/-! ### `strawberry/connection/voice_connection.py` -/

/-- Error kinds raised by the session layer: `RuntimeError("Voice
connection is not ready yet.")` (the spec's *NotReady*), the discovery
`ValueError` (*ProtocolError*), the unsupported-encryption-mode
`ValueError` (*ConfigError*), and a `struct.error` on truncated input. -/
inductive VErr where
  | notReady
  | protocolError
  | configError
  | truncated
deriving DecidableEq, Repr

/-- Python truthiness of an optional string (`None` and `""` are falsy). -/
def pyTruthyOptStr : Option String → Bool
  | none => false
  | some s => s != ""

/-- Python truthiness of an optional integer (`None` and `0` are falsy). -/
def pyTruthyOptNat : Option Nat → Bool
  | none => false
  | some n => n != 0

/-- Python `a or b` on an optional string versus a string. -/
def pyOrStr (a : Option String) (b : String) : String :=
  match a with
  | none => b
  | some s => if s = "" then b else s

/-- The state of a `VoiceConnection` (and of its embedded `UDPConnection`:
the lite-mode nonce counter lives on the UDP object).  Fields the
websocket/task plumbing owns are omitted; `secretKey` is `None` until
SELECT_PROTOCOL_ACK installs it. -/
structure VoiceConn where
  encryptionMode : String
  nonce : Nat
  guildId : Option String
  channelId : String
  serverId : String
  userId : String
  sessionId : String
  endpoint : String
  token : String
  ourIp : Option String
  ourPort : Option Nat
  ip : Option String
  port : Option Nat
  ssrc : Option Nat
  videoSsrc : Option Nat
  rtxSsrc : Option Nat
  secretKey : Option (List Nat)
deriving DecidableEq, Repr

/-- `VoiceConnection.__init__`: stores the identifiers and the encryption
mode verbatim (no validation), computes `server_id = guild_id or
channel_id`, zeroes the UDP nonce counter, and leaves every negotiated
field unset. -/
def vcInit (channelId userId sessionId endpoint token : String)
    (guildId : Option String) (encryptionMode : String) : VoiceConn :=
  { encryptionMode := encryptionMode
    nonce := 0
    guildId := guildId
    channelId := channelId
    serverId := pyOrStr guildId channelId
    userId := userId
    sessionId := sessionId
    endpoint := endpoint
    token := token
    ourIp := none
    ourPort := none
    ip := none
    port := none
    ssrc := none
    videoSsrc := none
    rtxSsrc := none
    secretKey := none }

/-- `VoiceConnection.is_ready`:
`all((self.endpoint, self.token, self.ip, self.port, self.ssrc))` under
Python truthiness. -/
def isReady (c : VoiceConn) : Bool :=
  (c.endpoint != "") && (c.token != "") && pyTruthyOptStr c.ip &&
    pyTruthyOptNat c.port && pyTruthyOptNat c.ssrc

/-- `VoiceConnection.ensure_ready`. -/
def ensureReady (c : VoiceConn) : Except VErr Unit :=
  if isReady c then .ok () else .error .notReady

/-- One SPEAKING frame as sent by `set_speaking` (op 5). -/
structure SpeakingFrame where
  op : Nat
  speaking : Nat
  delay : Nat
  ssrc : Option Nat
deriving DecidableEq, Repr

/-- `VoiceConnection.set_speaking`: gate on `ensure_ready`, then send one
frame with `speaking = int(speaking)`. -/
def voiceSetSpeaking (c : VoiceConn) (speaking : Bool) :
    Except VErr (List SpeakingFrame) :=
  match ensureReady c with
  | .error e => .error e
  | .ok _ =>
    .ok [{ op := 5, speaking := if speaking then 1 else 0, delay := 0,
           ssrc := c.ssrc }]

/-- `StreamConnection.set_speaking` (from `stream_connection.py`): gate on
`ensure_ready`, then send one frame with `speaking = 2 if speaking else 0`
(the platform's soundshare flag). -/
def streamSetSpeaking (c : VoiceConn) (speaking : Bool) :
    Except VErr (List SpeakingFrame) :=
  match ensureReady c with
  | .error e => .error e
  | .ok _ =>
    .ok [{ op := 5, speaking := if speaking then 2 else 0, delay := 0,
           ssrc := c.ssrc }]

/-- One VIDEO frame as sent by `set_video_state` (op 12). -/
structure VideoFrame where
  op : Nat
  audioSsrc : Option Nat
  videoSsrc : Option Nat
  rtxSsrc : Option Nat
  active : Bool
  quality : Nat
  maxBitrate : Nat
  maxFramerate : Nat
  width : Nat
  height : Nat
deriving DecidableEq, Repr

/-- `VoiceConnection.set_video_state`: gate on `ensure_ready`, then send
one VIDEO frame carrying the stream descriptor. -/
def setVideoState (c : VoiceConn) (state : Bool) (width height framerate bitrate : Nat) :
    Except VErr (List VideoFrame) :=
  match ensureReady c with
  | .error e => .error e
  | .ok _ =>
    .ok [{ op := 12, audioSsrc := c.ssrc, videoSsrc := c.videoSsrc,
           rtxSsrc := c.rtxSsrc, active := state, quality := 100,
           maxBitrate := bitrate, maxFramerate := framerate,
           width := width, height := height }]

/-! ### The encryptors of `UDPConnection` -/

/-- The `nacl.secret.SecretBox(key).encrypt(data, nonce).ciphertext`
primitive, external to the repository: an abstract function of key, nonce
and plaintext. -/
def EncFn : Type := List Nat → List Nat → List Nat → List Nat

/-- `UDPConnection.encrypt_data_xsalsa20_poly1305`: 24-byte nonce whose
first `len(header)` bytes are the RTP header, rest zero; no suffix. -/
def encryptDataXsalsa20Poly1305 (enc : EncFn) (c : VoiceConn)
    (header data : List Nat) : VoiceConn × List Nat :=
  let nonce := header ++ List.replicate (24 - header.length) 0
  (c, header ++ enc (c.secretKey.getD []) nonce data)

/-- `UDPConnection.encrypt_data_xsalsa20_poly1305_suffix`: 24 random nonce
bytes (`rnd`, drawn outside the repository), appended after the
ciphertext. -/
def encryptDataXsalsa20Poly1305Suffix (enc : EncFn) (rnd : List Nat)
    (c : VoiceConn) (header data : List Nat) : VoiceConn × List Nat :=
  (c, header ++ enc (c.secretKey.getD []) rnd data ++ rnd)

/-- The body of `UDPConnection.encrypt_data_xsalsa20_poly1305_lite` on the
(key, counter) state: increment the counter mod 2^32, use its 4 big-endian
bytes followed by 20 zero bytes as the nonce, and append those 4 bytes
after the ciphertext. -/
def liteEncrypt (enc : EncFn) (key : List Nat) (nonce : Nat)
    (header data : List Nat) : Nat × List Nat :=
  let n := checkedAdd nonce 1 MAX_INT_32
  (n, header ++ enc key (pack32 n ++ List.replicate 20 0) data ++ pack32 n)

/-- `UDPConnection.encrypt_data_xsalsa20_poly1305_lite` on the connection
state. -/
def encryptDataXsalsa20Poly1305Lite (enc : EncFn) (c : VoiceConn)
    (header data : List Nat) : VoiceConn × List Nat :=
  let r := liteEncrypt enc (c.secretKey.getD []) c.nonce header data
  ({ c with nonce := r.1 }, r.2)

/-- The keys of `UDPConnection.encryptors`. -/
def supportedModes : List String :=
  ["xsalsa20_poly1305", "xsalsa20_poly1305_suffix", "xsalsa20_poly1305_lite"]

/-- `UDPConnection.encrypt_data`: reject a mode that is not a key of
`encryptors` (`ValueError`, the spec's ConfigError), otherwise dispatch. -/
def encryptData (enc : EncFn) (rnd : List Nat) (c : VoiceConn)
    (header data : List Nat) : Except VErr (VoiceConn × List Nat) :=
  if c.encryptionMode ∉ supportedModes then .error .configError
  else if c.encryptionMode = "xsalsa20_poly1305" then
    .ok (encryptDataXsalsa20Poly1305 enc c header data)
  else if c.encryptionMode = "xsalsa20_poly1305_suffix" then
    .ok (encryptDataXsalsa20Poly1305Suffix enc rnd c header data)
  else
    .ok (encryptDataXsalsa20Poly1305Lite enc c header data)

/-! ### IP discovery (`UDPConnection.create_udp_socket`) -/

/-- The 74-byte discovery request: type `00 01`, length `00 46`, big-endian
audio SSRC, zero padding. -/
def buildDiscoveryRequest (ssrc : Nat) : List Nat :=
  [0, 1, 0, 0x46] ++ pack32 ssrc ++ List.replicate 66 0

/-- Parsing the 74-byte discovery response: require the first two bytes to
be `00 02` (else `ValueError`), take the reflexive IP as the bytes from
offset 8 up to the first zero byte (`data.find(0, 8)`; Python's `-1`
fallback makes the slice end one before the end of the data), and the
reflexive port as the big-endian u16 of the last two bytes.  The decoded
UTF-8 string is represented by its byte list. -/
def parseDiscoveryResponse (data : List Nat) : Except VErr (List Nat × Nat) :=
  match data with
  | a :: b :: _ =>
    if a * 256 + b ≠ 2 then .error .protocolError
    else
      let stop := match (data.drop 8).findIdx? (· == 0) with
        | some i => 8 + i
        | none => data.length - 1
      .ok ((data.take stop).drop 8, bytesToNatBE (data.drop (data.length - 2)))
  | _ => .error .truncated

/-- **C1.** For every voice or stream session state, calling `set_speaking`
or `set_video_state` before the session is ready fails with NotReady; once
ready, `set_speaking(true)` sends exactly one SPEAKING frame whose
`speaking` field is 1 for a voice session and 2 for a stream session, and
0 for `false` in both. -/
theorem C1_speaking_video_ready_gating :
    ∀ (c : VoiceConn) (b : Bool) (w ht fr br : Nat),
      (isReady c = false →
        voiceSetSpeaking c b = .error .notReady ∧
        streamSetSpeaking c b = .error .notReady ∧
        setVideoState c b w ht fr br = .error .notReady) ∧
      (isReady c = true →
        voiceSetSpeaking c true =
          .ok [{ op := 5, speaking := 1, delay := 0, ssrc := c.ssrc }] ∧
        voiceSetSpeaking c false =
          .ok [{ op := 5, speaking := 0, delay := 0, ssrc := c.ssrc }] ∧
        streamSetSpeaking c true =
          .ok [{ op := 5, speaking := 2, delay := 0, ssrc := c.ssrc }] ∧
        streamSetSpeaking c false =
          .ok [{ op := 5, speaking := 0, delay := 0, ssrc := c.ssrc }]) := by
  intro c b w ht fr br
  constructor
  · intro hr
    refine ⟨?_, ?_, ?_⟩ <;>
      simp [voiceSetSpeaking, streamSetSpeaking, setVideoState, ensureReady, hr]
  · intro hr
    refine ⟨?_, ?_, ?_, ?_⟩ <;>
      simp [voiceSetSpeaking, streamSetSpeaking, ensureReady, hr]

/-- A session state in which every readiness field is truthy. -/
def readyDemoConn : VoiceConn :=
  { vcInit "chan" "user" "sess" "endp.example" "tok" none "xsalsa20_poly1305_lite"
    with ip := some "1.2.3.4", port := some 50000, ssrc := some 7,
         videoSsrc := some 8, rtxSsrc := some 9 }

/-- A freshly constructed (not yet negotiated) session state. -/
def freshDemoConn : VoiceConn :=
  vcInit "chan" "user" "sess" "endp.example" "tok" none "xsalsa20_poly1305_lite"

/-- Witness for C1 at the two concrete states. -/
theorem C1_speaking_video_ready_gating_witness :
    voiceSetSpeaking freshDemoConn true = .error .notReady ∧
    setVideoState freshDemoConn true 1280 720 30 (25 * 1024) = .error .notReady ∧
    voiceSetSpeaking readyDemoConn true =
      .ok [{ op := 5, speaking := 1, delay := 0, ssrc := some 7 }] ∧
    streamSetSpeaking readyDemoConn true =
      .ok [{ op := 5, speaking := 2, delay := 0, ssrc := some 7 }] ∧
    streamSetSpeaking readyDemoConn false =
      .ok [{ op := 5, speaking := 0, delay := 0, ssrc := some 7 }] :=
  have hfresh := (C1_speaking_video_ready_gating freshDemoConn true 1280 720 30
    (25 * 1024)).1 (by decide)
  have hready := (C1_speaking_video_ready_gating readyDemoConn true 1280 720 30
    (25 * 1024)).2 (by decide)
  ⟨hfresh.1, hfresh.2.2, hready.1, hready.2.2.1, hready.2.2.2⟩

/-- A session constructed with an encryption mode that is not one of the
three supported modes. -/
def bogusConn : VoiceConn :=
  vcInit "chan" "user" "sess" "endp.example" "tok" none "bogus-mode"

/-- **C2, counterexample.**  Constructing a session with the unknown
encryption mode `"bogus-mode"` does *not* raise: `__init__` stores the
mode string unvalidated and returns a normal session object.  The
configuration error (`ValueError: Unsupported encryption mode`) only
appears when `encrypt_data` is first called. -/
theorem C2_unknown_mode_counterexample :
    bogusConn.encryptionMode = "bogus-mode" ∧
    "bogus-mode" ∉ supportedModes ∧
    bogusConn.nonce = 0 ∧ bogusConn.secretKey = none ∧
    encryptData (fun _ _ d => d) [] bogusConn [] [] = .error .configError := by
  refine ⟨rfl, by decide, rfl, rfl, ?_⟩
  rfl

/-- **C2, amended.**  Constructing a session with an unknown encryption
mode succeeds, storing the mode verbatim; the configuration error is
raised at the first `encrypt_data` call with that session (before any
ciphertext is produced or packet sent). -/
theorem C2_unknown_mode_error_at_first_encrypt :
    ∀ (channelId userId sessionId endpoint token : String)
      (guildId : Option String) (mode : String),
      mode ∉ supportedModes →
      (vcInit channelId userId sessionId endpoint token guildId
          mode).encryptionMode = mode ∧
      (∀ (enc : EncFn) (rnd header data : List Nat) (c : VoiceConn),
        c.encryptionMode = mode →
        encryptData enc rnd c header data = .error .configError) := by
  intro channelId userId sessionId endpoint token guildId mode hmode
  refine ⟨rfl, ?_⟩
  intro enc rnd header data c hc
  rw [encryptData, if_pos]
  rw [hc]
  exact hmode

/-- Witness for the amended C2 at another concrete unsupported mode. -/
theorem C2_unknown_mode_error_at_first_encrypt_witness :
    (vcInit "chan" "user" "sess" "endp.example" "tok" none
        "aead_aes256_gcm").encryptionMode = "aead_aes256_gcm" ∧
    encryptData (fun _ _ d => d) [] (vcInit "chan" "user" "sess"
        "endp.example" "tok" none "aead_aes256_gcm") [1] [2]
      = .error .configError :=
  have h := C2_unknown_mode_error_at_first_encrypt "chan" "user" "sess"
    "endp.example" "tok" none "aead_aes256_gcm" (by decide)
  ⟨h.1, h.2 (fun _ _ d => d) [] [1] [2] _ rfl⟩

/-- The lite-mode nonce counter after `n` consecutive `encrypt_data` calls
starting from counter value `c0` (iterating the encryptor itself). -/
def liteNonceAfter (enc : EncFn) (key header data : List Nat) (c0 : Nat) :
    Nat → Nat
  | 0 => c0
  | k + 1 => (liteEncrypt enc key (liteNonceAfter enc key header data c0 k)
      header data).1

theorem liteNonceAfter_eq (enc : EncFn) (key header data : List Nat)
    (c0 : Nat) :
    ∀ n : Nat, 1 ≤ n →
      liteNonceAfter enc key header data c0 n = (c0 + n) % MAX_INT_32 := by
  intro n hn
  induction n with
  | zero => exact absurd hn (by decide)
  | succ k ih =>
    rcases Nat.eq_zero_or_pos k with hk | hk
    · subst hk
      simp only [liteNonceAfter, liteEncrypt, checkedAdd]
    · simp only [liteNonceAfter, liteEncrypt, checkedAdd, ih hk, MAX_INT_32_eq]
      omega

/-- **C6.** In lite encryption mode, for every `n ≥ 1` and every initial
counter value, the 4-byte suffix appended after the ciphertext of the
`n`-th encrypted packet is `big_endian_u32((initial + n) mod 2^32)` — the
whole output of the `n`-th call is the header, then the ciphertext under
the corresponding nonce, then exactly those four bytes. -/
theorem C6_lite_nonce_suffix :
    ∀ (enc : EncFn) (key header data : List Nat) (c0 n : Nat), 1 ≤ n →
      liteNonceAfter enc key header data c0 n = (c0 + n) % MAX_INT_32 ∧
      (liteEncrypt enc key (liteNonceAfter enc key header data c0 (n - 1))
          header data).2
        = header ++
            enc key (pack32 ((c0 + n) % MAX_INT_32) ++ List.replicate 20 0) data
            ++ pack32 ((c0 + n) % MAX_INT_32) := by
  intro enc key header data c0 n hn
  refine ⟨liteNonceAfter_eq enc key header data c0 n hn, ?_⟩
  have hstep : (liteEncrypt enc key
        (liteNonceAfter enc key header data c0 (n - 1)) header data).1
      = liteNonceAfter enc key header data c0 n := by
    conv_rhs => rw [show n = (n - 1) + 1 by omega]
    rfl
  have hval : checkedAdd (liteNonceAfter enc key header data c0 (n - 1)) 1
      MAX_INT_32 = (c0 + n) % MAX_INT_32 := by
    have := hstep
    simp only [liteEncrypt] at this
    rw [this, liteNonceAfter_eq enc key header data c0 n hn]
  simp only [liteEncrypt, hval]

/-- Witness for C6: with initial counter 0, the third lite encryption
appends the suffix `00 00 00 03`. -/
theorem C6_lite_nonce_suffix_witness :
    (liteEncrypt (fun _ _ d => d) []
        (liteNonceAfter (fun _ _ d => d) [] [9] [7, 8] 0 2) [9] [7, 8]).2
      = [9] ++ [7, 8] ++ [0, 0, 0, 3] :=
  have h := C6_lite_nonce_suffix (fun _ _ d => d) [] [9] [7, 8] 0 3 (by decide)
  h.2.trans (by decide)

/-- **C4.** The IP discovery handshake builds a 74-byte request whose
bytes 0-1 are `00 01`, bytes 2-3 are `00 46`, and bytes 4-7 the big-endian
audio SSRC (`struct.pack(">I", ...)` requires the SSRC to fit 32 bits);
for every 74-byte response whose first two bytes are `00 02` and whose
bytes from offset 8 contain a zero terminator (at relative index `i`,
with the IP field ASCII), the stored reflexive address is the byte string
from offset 8 up to that first zero byte paired with the big-endian u16 of
the last two bytes; and a 74-byte response not starting `00 02` fails with
a protocol error. -/
theorem C4_ip_discovery :
    (∀ ssrc : Nat, ssrc < MAX_INT_32 →
       (buildDiscoveryRequest ssrc).length = 74 ∧
       (buildDiscoveryRequest ssrc).take 4 = [0, 1, 0, 0x46] ∧
       ((buildDiscoveryRequest ssrc).drop 4).take 4 = pack32 ssrc) ∧
    (∀ (rest : List Nat) (i : Nat),
       (0 :: 2 :: rest).length = 74 →
       ((0 :: 2 :: rest).drop 8).findIdx? (· == 0) = some i →
       (∀ x ∈ ((0 :: 2 :: rest).take (8 + i)).drop 8, x < 128) →
       parseDiscoveryResponse (0 :: 2 :: rest) =
         .ok (((0 :: 2 :: rest).take (8 + i)).drop 8,
           bytesToNatBE ((0 :: 2 :: rest).drop 72))) ∧
    (∀ (a b : Nat) (rest : List Nat),
       (a :: b :: rest).length = 74 → a * 256 + b ≠ 2 →
       parseDiscoveryResponse (a :: b :: rest) = .error .protocolError) := by
  refine ⟨?_, ?_, ?_⟩
  · intro ssrc _
    refine ⟨?_, rfl, rfl⟩
    simp [buildDiscoveryRequest, pack32]
  · intro rest i hlen hfind _
    simp only [parseDiscoveryResponse, hfind, hlen]
    norm_num
  · intro a b rest hlen hne
    simp only [parseDiscoveryResponse]
    rw [if_pos hne]

/-- The last 72 bytes of the scenario response: six padding bytes, the
ASCII bytes of `"1.2.3.4"` with a zero terminator at offset 8, zero
padding, and the port `0x1F90 = 8080` in the last two bytes. -/
def c4DemoRest : List Nat :=
  List.replicate 6 0 ++ [49, 46, 50, 46, 51, 46, 52, 0] ++
    List.replicate 56 0 ++ [0x1F, 0x90]

/-- Witness for C4: the spec's scenario — request for SSRC `0x12345678`,
response with ASCII `1.2.3.4\0` at offset 8 and `0x1F90` in the last two
bytes parses to `("1.2.3.4" as bytes, 8080)`; flipping the type field to
`00 01` yields the protocol error. -/
theorem C4_ip_discovery_witness :
    parseDiscoveryResponse (0 :: 2 :: c4DemoRest) =
      .ok (((0 :: 2 :: c4DemoRest).take (8 + 7)).drop 8,
        bytesToNatBE ((0 :: 2 :: c4DemoRest).drop 72)) ∧
    ((0 :: 2 :: c4DemoRest).take (8 + 7)).drop 8 = [49, 46, 50, 46, 51, 46, 52] ∧
    bytesToNatBE ((0 :: 2 :: c4DemoRest).drop 72) = 8080 ∧
    (buildDiscoveryRequest 0x12345678).take 4 = [0, 1, 0, 0x46] ∧
    ((buildDiscoveryRequest 0x12345678).drop 4).take 4 = [0x12, 0x34, 0x56, 0x78] ∧
    parseDiscoveryResponse (0 :: 1 :: c4DemoRest) = .error .protocolError :=
  ⟨C4_ip_discovery.2.1 c4DemoRest 7 (by decide) (by decide) (by decide),
   by decide, by decide,
   (C4_ip_discovery.1 0x12345678 (by decide)).2.1,
   ((C4_ip_discovery.1 0x12345678 (by decide)).2.2).trans (by decide),
   C4_ip_discovery.2.2 0 1 c4DemoRest (by decide) (by decide)⟩
